import Mathlib

/-!
Verification of the json_stream program: a bounded byte conduit (the external
pipe crate) bridged to an asynchronous chunk sequence by `PipeReaderStream`.
The adapter is embedded from `src/main.rs`; the conduit itself is not part of
the sources, so its endpoints are modelled from the specification.
-/

namespace JsonStream

/-- Fixed read-buffer capacity, from the source: `const BUFFER_SIZE: usize = 64;`. -/
def BUFFER_SIZE : Nat := 64

/-- Modelled from the spec: the state of the Bounded Byte Conduit (the external
pipe crate value returned by `pipe_buffered`, absent from the sources).
`buffer` holds the bytes written but not yet read, in FIFO order;
`writerClosed` records that the Write Endpoint has been closed;
`readerDropped` records that the Read Endpoint has been dropped;
`readBroken` records that the read mechanism failed abnormally
(the paired endpoint abnormally discarded). -/
structure PipeState where
  buffer : List Nat
  writerClosed : Bool
  readerDropped : Bool
  readBroken : Bool
deriving Repr, DecidableEq

/-- Result of one `read` or one yielded stream item: `Result<_, io::Error>`
with the error payload abstracted away. -/
inductive RResult where
  | ok (bytes : List Nat)
  | err
deriving Repr, DecidableEq

/-- Modelled from the spec: `read` on the conduit Read Endpoint into a buffer of
capacity `cap`. `none` means the call blocks (buffer empty, writer still open);
`some (RResult.ok bs, s)` is a successful read of the first `min cap n` buffered
bytes; `some (RResult.ok [], s)` is the zero-byte end-of-stream result returned
once the writer is closed and the buffer drained; `some (RResult.err, s)`
is a read failure. -/
def pipe_read (cap : Nat) (s : PipeState) :
    Option (RResult × PipeState) :=
  if s.readBroken then some (RResult.err, s)
  else if s.buffer.isEmpty then
    if s.writerClosed then some (RResult.ok [], s) else none
  else some (RResult.ok (s.buffer.take cap), { s with buffer := s.buffer.drop cap })

/-- Result of one `write`: the count of bytes accepted and the new conduit
state, or a channel-broken failure. -/
inductive WResult where
  | ok (written : Nat) (s : PipeState)
  | err
deriving Repr, DecidableEq

/-- Modelled from the spec: `write` on the conduit Write Endpoint with internal
capacity `cap`. `none` means the call blocks (buffer full, reader alive);
a channel-broken failure is returned when the Read Endpoint has been dropped;
otherwise a partial write accepts as many bytes as currently fit and returns
their count together with the new state. -/
def pipe_write (cap : Nat) (s : PipeState) (data : List Nat) :
    Option WResult :=
  if s.readerDropped then some WResult.err
  else if s.buffer.length < cap then
    some (WResult.ok (min data.length (cap - s.buffer.length))
      { s with buffer := s.buffer ++ data.take (cap - s.buffer.length) })
  else none

/-- The stack buffer `let mut buf = [0; BUFFER_SIZE]` after `read` has placed
the bytes `bs` into its front (source line 54): the read bytes followed by the
untouched zero fill. -/
def readBuf (bs : List Nat) : List Nat :=
  bs ++ List.replicate (BUFFER_SIZE - bs.length) 0

/-- The slice-and-copy `buf[..n].to_vec()` (source line 61). `none` models the
out-of-bounds panic that would occur if `n` exceeded the buffer length. -/
def sliceTo (buf : List Nat) (n : Nat) : Option (List Nat) :=
  if n ≤ buf.length then some (buf.take n) else none

/-- The scheduler-facing result type `Poll` of the async task system. -/
inductive Poll (α : Type) where
  | ready (val : α)
  | pending
deriving Repr, DecidableEq

/-- Outcome of one call to `poll_next`: the call may block inside the inline
`self.inner.read` (`blocked`, the function has not returned yet), would abort
on an out-of-range slice (`panicked`), or returns a `Poll` value whose payload
is `Option RResult`, mirroring
`Poll<Option<Result<bytes::Bytes, io::Error>>>`. -/
inductive StepOut where
  | blocked
  | panicked
  | returned (r : Poll (Option RResult))
deriving Repr, DecidableEq

/-- The Adapter: `struct PipeReaderStream { inner: PipeReader }` from the source. -/
structure PipeReaderStream where
  inner : PipeState
deriving Repr, DecidableEq

/-- `PipeReaderStream::poll_next` (source lines 52-63): read into a fresh
`BUFFER_SIZE` stack buffer, then wrap the match on the read result in
`Poll::Ready` — `Ok(0)` ends the sequence, `Ok(n)` yields an owned copy of
`buf[..n]`, `Err(e)` yields one error item. -/
def poll_next (s : PipeReaderStream) : StepOut × PipeReaderStream :=
  match pipe_read BUFFER_SIZE s.inner with
  | none => (StepOut.blocked, s)
  | some (RResult.ok bs, inner2) =>
    if bs.length = 0 then (StepOut.returned (Poll.ready none), ⟨inner2⟩)
    else
      match sliceTo (readBuf bs) bs.length with
      | some chunk =>
        (StepOut.returned (Poll.ready (some (RResult.ok chunk))), ⟨inner2⟩)
      | none => (StepOut.panicked, ⟨inner2⟩)
  | some (RResult.err, inner2) =>
    (StepOut.returned (Poll.ready (some RResult.err)), ⟨inner2⟩)

/-- The outcomes of `n` successive calls to `poll_next`, threading the state. -/
def iteratePolls : Nat → PipeReaderStream → List StepOut
  | 0, _ => []
  | Nat.succ n, s => (poll_next s).fst :: iteratePolls n (poll_next s).snd

/-- Joint state of one transfer: `pending` is the serialized payload suffix the
Producer Task still has to write, `stream` is the Adapter wrapping the conduit,
`chunks` are the Byte Chunks yielded so far in order, and `streamDone` records
that the chunk sequence has terminated (a `None` item or an error item was
observed by the Transmitter Task). -/
structure SysState where
  pending : List Nat
  stream : PipeReaderStream
  chunks : List (List Nat)
  streamDone : Bool
deriving Repr, DecidableEq

/-- One scheduling opportunity for the Producer Task (source lines 85-87):
while bytes remain it calls `write` on the Write Endpoint, dropping however
many bytes the partial write accepted; when all bytes are written the writer is
dropped, closing the Write Endpoint. A blocked or failed write changes
nothing at this granularity. -/
def producerStep (s : SysState) : SysState :=
  if s.stream.inner.writerClosed then s
  else
    match s.pending with
    | [] => { s with stream := ⟨{ s.stream.inner with writerClosed := true }⟩ }
    | _ :: _ =>
      match pipe_write BUFFER_SIZE s.stream.inner s.pending with
      | none => s
      | some WResult.err => s
      | some (WResult.ok k p) =>
        { s with pending := s.pending.drop k, stream := ⟨p⟩ }

/-- One scheduling opportunity for the Transmitter Task: poll the Adapter once,
record a yielded chunk, and mark the sequence done on `None` or on an error
item. -/
def consumerStep (s : SysState) : SysState :=
  if s.streamDone then s
  else
    match poll_next s.stream with
    | (StepOut.blocked, _) => s
    | (StepOut.panicked, _) => s
    | (StepOut.returned Poll.pending, st) => { s with stream := st }
    | (StepOut.returned (Poll.ready none), st) =>
      { s with stream := st, streamDone := true }
    | (StepOut.returned (Poll.ready (some (RResult.ok c))), st) =>
      { s with stream := st, chunks := s.chunks ++ [c] }
    | (StepOut.returned (Poll.ready (some RResult.err)), st) =>
      { s with stream := st, streamDone := true }

/-- One interleaving step: `true` schedules the Producer Task, `false` the
Transmitter Task. -/
def step (s : SysState) (producerTurn : Bool) : SysState :=
  if producerTurn then producerStep s else consumerStep s

/-- Run the transfer under an arbitrary interleaving schedule. -/
def run (sched : List Bool) (s : SysState) : SysState :=
  sched.foldl step s

/-- Initial state: the whole serialized payload pending, a fresh conduit with
both endpoints alive, no chunks yielded yet. -/
def initSys (payload : List Nat) : SysState :=
  { pending := payload
    stream := ⟨⟨[], false, false, false⟩⟩
    chunks := []
    streamDone := false }

/-- Slicing the stack buffer at the read count always succeeds and returns
exactly the bytes the read placed there. -/
lemma sliceTo_readBuf (bs : List Nat) : sliceTo (readBuf bs) bs.length = some bs := by
  unfold sliceTo readBuf
  rw [if_pos (by simp)]
  rw [List.take_left]

/-- A poll that returns its own state unchanged keeps returning the same
outcome on every subsequent poll. -/
lemma iteratePolls_fixpoint (t : PipeReaderStream) (o : StepOut)
    (h : poll_next t = (o, t)) :
    ∀ n, iteratePolls n t = List.replicate n o := by
  intro n
  induction n with
  | zero => rfl
  | succ n ih => simp [iteratePolls, h, ih, List.replicate_succ]

/-- On a drained conduit with a closed writer, one poll yields the terminal
`None` and leaves the state unchanged. -/
lemma poll_next_eof_fix (p : PipeState) (hb : p.buffer = [])
    (hw : p.writerClosed = true) (hn : p.readBroken = false) :
    poll_next ⟨p⟩ = (StepOut.returned (Poll.ready none), ⟨p⟩) := by
  simp [poll_next, pipe_read, hb, hw, hn]

/-- Whenever `poll_next` returns at all, it is either still inside the inline
blocking read or it hands the scheduler a ready value — never `Poll.pending`
and never a panic. -/
lemma poll_next_blocked_or_ready (t : PipeReaderStream) :
    (poll_next t).fst = StepOut.blocked ∨
      ∃ v, (poll_next t).fst = StepOut.returned (Poll.ready v) := by
  obtain ⟨⟨buf, wc, rd, rb⟩⟩ := t
  cases rb with
  | true => exact Or.inr ⟨some RResult.err, by simp [poll_next, pipe_read]⟩
  | false =>
    cases buf with
    | nil =>
      cases wc with
      | false => exact Or.inl (by simp [poll_next, pipe_read])
      | true => exact Or.inr ⟨none, by simp [poll_next, pipe_read]⟩
    | cons a l =>
      refine Or.inr ⟨some (RResult.ok ((a :: l).take BUFFER_SIZE)), ?_⟩
      have hs : sliceTo (readBuf ((a :: l).take BUFFER_SIZE))
          (BUFFER_SIZE ⊓ (l.length + 1)) = some ((a :: l).take BUFFER_SIZE) := by
        simpa using sliceTo_readBuf ((a :: l).take BUFFER_SIZE)
      simp [poll_next, pipe_read]
      rw [if_neg (by decide : ¬(BUFFER_SIZE = 0))]
      rw [hs]

/-- Claim C5: for every state of the underlying conduit reader, a call to
`poll_next` never hands the scheduler `Poll.pending`; whenever the call
returns (it may block inside the inline read, but then it has not returned),
the result is `Poll.ready`. -/
theorem poll_next_never_pending :
    ∀ t : PipeReaderStream,
      (poll_next t).fst ≠ StepOut.returned Poll.pending ∧
        ((poll_next t).fst = StepOut.blocked ∨
          ∃ v, (poll_next t).fst = StepOut.returned (Poll.ready v)) := by
  intro t
  refine ⟨?_, poll_next_blocked_or_ready t⟩
  rcases poll_next_blocked_or_ready t with h | ⟨v, h⟩ <;> simp [h]

/-- Claim C10: `poll_next` is total and never panics — for every byte count
`n` returned by the underlying read with `n ≤ BUFFER_SIZE`, the stack buffer
has length exactly `BUFFER_SIZE`, the slice `buf[..n]` is in bounds and
recovers exactly the read bytes, and no poll ever reaches the out-of-bounds
failure outcome. -/
theorem poll_next_no_panic :
    (∀ bs : List Nat, bs.length ≤ BUFFER_SIZE →
      (readBuf bs).length = BUFFER_SIZE ∧
        sliceTo (readBuf bs) bs.length = some bs) ∧
    ∀ t : PipeReaderStream, (poll_next t).fst ≠ StepOut.panicked := by
  constructor
  · intro bs hle
    refine ⟨?_, sliceTo_readBuf bs⟩
    simp [readBuf]
    omega
  · intro t
    rcases poll_next_blocked_or_ready t with h | ⟨v, h⟩ <;> simp [h]

/-- Claim C10 witness: the slice bound holds at the concrete two-byte read. -/
theorem poll_next_no_panic_witness :
    (readBuf [1, 2]).length = BUFFER_SIZE ∧
      sliceTo (readBuf [1, 2]) ([1, 2] : List Nat).length = some [1, 2] :=
  poll_next_no_panic.1 [1, 2] (by decide)

/-- Claim C2: whenever the underlying conduit read returns `N > 0` bytes,
`poll_next` yields exactly one ready chunk whose contents are exactly those
`N` bytes — the copy of `buf[..n]` taken by the source adds and loses
nothing. -/
theorem poll_next_yields_read_bytes (t : PipeReaderStream) (bs : List Nat)
    (p : PipeState)
    (hread : pipe_read BUFFER_SIZE t.inner = some (RResult.ok bs, p))
    (hpos : 0 < bs.length) :
    poll_next t = (StepOut.returned (Poll.ready (some (RResult.ok bs))), ⟨p⟩) := by
  unfold poll_next
  rw [hread]
  simp only [if_neg (by omega : ¬(bs.length = 0)), sliceTo_readBuf]

/-- Claim C2 witness: a three-byte read yields exactly that three-byte chunk. -/
theorem poll_next_yields_read_bytes_witness :
    poll_next ⟨⟨[1, 2, 3], false, false, false⟩⟩ =
      (StepOut.returned (Poll.ready (some (RResult.ok [1, 2, 3]))),
        ⟨⟨[], false, false, false⟩⟩) :=
  poll_next_yields_read_bytes ⟨⟨[1, 2, 3], false, false, false⟩⟩ [1, 2, 3]
    ⟨[], false, false, false⟩ (by decide) (by decide)

/-- Claim C4: when the underlying read fails, `poll_next` yields exactly one
ready error item, and from that state every subsequent poll again yields an
error item — never a data chunk, so the sequence is exhausted of data. -/
theorem poll_next_error_exhausts (t : PipeReaderStream)
    (h : t.inner.readBroken = true) :
    poll_next t = (StepOut.returned (Poll.ready (some RResult.err)), t) ∧
      ∀ n, iteratePolls n t =
        List.replicate n (StepOut.returned (Poll.ready (some RResult.err))) := by
  have hp : poll_next t = (StepOut.returned (Poll.ready (some RResult.err)), t) := by
    simp [poll_next, pipe_read, h]
  exact ⟨hp, iteratePolls_fixpoint t _ hp⟩

/-- Claim C4 witness: on a concrete broken conduit the first poll errors and
the next two polls are again error items, not data chunks. -/
theorem poll_next_error_exhausts_witness :
    poll_next ⟨⟨[], false, false, true⟩⟩ =
      (StepOut.returned (Poll.ready (some RResult.err)), ⟨⟨[], false, false, true⟩⟩) ∧
      iteratePolls 2 ⟨⟨[], false, false, true⟩⟩ =
        List.replicate 2 (StepOut.returned (Poll.ready (some RResult.err))) :=
  ⟨(poll_next_error_exhausts ⟨⟨[], false, false, true⟩⟩ rfl).1,
    (poll_next_error_exhausts ⟨⟨[], false, false, true⟩⟩ rfl).2 2⟩

/-- Claim C8: once the Write Endpoint is closed and the buffer drained, the
next read returns zero bytes, the poll yields the terminal `None` leaving the
state unchanged, and every subsequent poll yields `None` again — the
end-of-stream is idempotent. -/
theorem end_of_stream_idempotent (p : PipeState) (hw : p.writerClosed = true)
    (hb : p.buffer = []) (hn : p.readBroken = false) :
    pipe_read BUFFER_SIZE p = some (RResult.ok [], p) ∧
      ∀ n, iteratePolls n ⟨p⟩ =
        List.replicate n (StepOut.returned (Poll.ready none)) := by
  refine ⟨by simp [pipe_read, hb, hw, hn], ?_⟩
  exact iteratePolls_fixpoint ⟨p⟩ _ (poll_next_eof_fix p hb hw hn)

/-- Claim C8 witness: the drained-and-closed conduit reads zero bytes and
three successive polls all yield `None`. -/
theorem end_of_stream_idempotent_witness :
    pipe_read BUFFER_SIZE ⟨[], true, false, false⟩ =
      some (RResult.ok [], ⟨[], true, false, false⟩) ∧
      iteratePolls 3 ⟨⟨[], true, false, false⟩⟩ =
        List.replicate 3 (StepOut.returned (Poll.ready none)) :=
  ⟨(end_of_stream_idempotent ⟨[], true, false, false⟩ rfl rfl rfl).1,
    (end_of_stream_idempotent ⟨[], true, false, false⟩ rfl rfl rfl).2 3⟩

/-- Claim C9: a write against a conduit whose Read Endpoint has been dropped
returns a channel-broken failure — it does not block and does not succeed. -/
theorem write_fails_after_reader_drop (p : PipeState) (data : List Nat)
    (h : p.readerDropped = true) :
    pipe_write BUFFER_SIZE p data = some WResult.err := by
  simp [pipe_write, h]

/-- Claim C9 witness: writing two bytes after the reader is dropped fails. -/
theorem write_fails_after_reader_drop_witness :
    pipe_write BUFFER_SIZE ⟨[], false, true, false⟩ [1, 2] = some WResult.err :=
  write_fails_after_reader_drop ⟨[], false, true, false⟩ [1, 2] rfl

/-- Claim C3: when the underlying conduit read returns zero bytes, `poll_next`
yields end-of-sequence (`Poll.ready none`), and from the resulting state every
further poll yields `None` again: the sequence has terminated for good and is
not restartable. -/
theorem poll_next_eof_terminates (t : PipeReaderStream) (p : PipeState)
    (hread : pipe_read BUFFER_SIZE t.inner = some (RResult.ok [], p)) :
    poll_next t = (StepOut.returned (Poll.ready none), ⟨p⟩) ∧
      ∀ n, iteratePolls n ⟨p⟩ =
        List.replicate n (StepOut.returned (Poll.ready none)) := by
  obtain ⟨⟨buf, wc, rd, rb⟩⟩ := t
  cases rb with
  | true => exact absurd hread (by simp [pipe_read])
  | false =>
    cases buf with
    | cons a l =>
      exfalso
      simp [pipe_read, BUFFER_SIZE] at hread
    | nil =>
      cases wc with
      | false => exact absurd hread (by simp [pipe_read])
      | true =>
        have hp : (⟨[], true, rd, false⟩ : PipeState) = p := by
          simpa [pipe_read] using hread
        subst hp
        exact ⟨poll_next_eof_fix _ rfl rfl rfl,
          iteratePolls_fixpoint _ _ (poll_next_eof_fix _ rfl rfl rfl)⟩

/-- Claim C3 witness: a zero-byte read on the closed, drained conduit ends the
sequence, and two further polls stay ended. -/
theorem poll_next_eof_terminates_witness :
    poll_next ⟨⟨[], true, false, false⟩⟩ =
      (StepOut.returned (Poll.ready none), ⟨⟨[], true, false, false⟩⟩) ∧
      iteratePolls 2 ⟨⟨[], true, false, false⟩⟩ =
        List.replicate 2 (StepOut.returned (Poll.ready none)) :=
  ⟨(poll_next_eof_terminates ⟨⟨[], true, false, false⟩⟩
      ⟨[], true, false, false⟩ (by decide)).1,
    (poll_next_eof_terminates ⟨⟨[], true, false, false⟩⟩
      ⟨[], true, false, false⟩ (by decide)).2 2⟩

/-- Claim C6: every data chunk yielded by `poll_next` has length at least 1
and at most `BUFFER_SIZE` (the chunk is a fresh owned list built from the read
bytes, so immutability and ownership are structural here). -/
theorem chunk_length_bounds (t : PipeReaderStream) (c : List Nat)
    (h : (poll_next t).fst = StepOut.returned (Poll.ready (some (RResult.ok c)))) :
    1 ≤ c.length ∧ c.length ≤ BUFFER_SIZE := by
  obtain ⟨⟨buf, wc, rd, rb⟩⟩ := t
  cases rb with
  | true => simp [poll_next, pipe_read] at h
  | false =>
    cases buf with
    | nil => cases wc <;> simp [poll_next, pipe_read] at h
    | cons a l =>
      have hs : sliceTo (readBuf ((a :: l).take BUFFER_SIZE))
          (BUFFER_SIZE ⊓ (l.length + 1)) = some ((a :: l).take BUFFER_SIZE) := by
        simpa using sliceTo_readBuf ((a :: l).take BUFFER_SIZE)
      simp [poll_next, pipe_read] at h
      rw [if_neg (by decide : ¬(BUFFER_SIZE = 0))] at h
      rw [hs] at h
      simp at h
      subst h
      constructor
      · simp [List.length_take, BUFFER_SIZE]
      · simp [List.length_take]

/-- Claim C6 witness: a one-byte chunk from a one-byte buffer is within
bounds. -/
theorem chunk_length_bounds_witness :
    1 ≤ ([9] : List Nat).length ∧ ([9] : List Nat).length ≤ BUFFER_SIZE :=
  chunk_length_bounds ⟨⟨[9], false, false, false⟩⟩ [9] (by decide)

/-- On an empty buffer with the writer still open, the poll blocks inside the
read and changes nothing. -/
lemma poll_next_blocked_nil (rd : Bool) :
    poll_next ⟨⟨[], false, rd, false⟩⟩ = (StepOut.blocked, ⟨⟨[], false, rd, false⟩⟩) := by
  simp [poll_next, pipe_read]

/-- On a nonempty buffer the poll yields the first `BUFFER_SIZE` buffered
bytes as one chunk and drops them from the conduit. -/
lemma poll_next_cons (a : Nat) (l : List Nat) (wc rd : Bool) :
    poll_next ⟨⟨a :: l, wc, rd, false⟩⟩ =
      (StepOut.returned (Poll.ready (some (RResult.ok ((a :: l).take BUFFER_SIZE)))),
        ⟨⟨(a :: l).drop BUFFER_SIZE, wc, rd, false⟩⟩) := by
  have hs : sliceTo (readBuf ((a :: l).take BUFFER_SIZE))
      (BUFFER_SIZE ⊓ (l.length + 1)) = some ((a :: l).take BUFFER_SIZE) := by
    simpa using sliceTo_readBuf ((a :: l).take BUFFER_SIZE)
  simp [poll_next, pipe_read]
  rw [if_neg (by decide : ¬(BUFFER_SIZE = 0))]
  rw [hs]

/-- The transfer invariant: the chunks already yielded, the bytes still
buffered in the conduit and the bytes still pending at the producer together
spell the payload; a closed writer means nothing is pending; the conduit is
healthy; and a terminated sequence means the conduit is drained and closed. -/
def Inv (payload : List Nat) (s : SysState) : Prop :=
  s.chunks.flatten ++ s.stream.inner.buffer ++ s.pending = payload ∧
  (s.stream.inner.writerClosed = true → s.pending = []) ∧
  s.stream.inner.readBroken = false ∧
  s.stream.inner.readerDropped = false ∧
  (s.streamDone = true →
    s.stream.inner.buffer = [] ∧ s.stream.inner.writerClosed = true)

lemma inv_init (payload : List Nat) : Inv payload (initSys payload) := by
  refine ⟨by simp [initSys], by simp [initSys], rfl, rfl, by simp [initSys]⟩

lemma inv_producerStep (payload : List Nat) (s : SysState)
    (h : Inv payload s) : Inv payload (producerStep s) := by
  obtain ⟨pend, ⟨⟨buf, wc, rd, rb⟩⟩, cks, done⟩ := s
  obtain ⟨h1, h2, h3, h4, h5⟩ := h
  simp only at h1 h2 h3 h4 h5
  subst h3
  subst h4
  cases wc with
  | true => exact ⟨h1, h2, rfl, rfl, h5⟩
  | false =>
    cases pend with
    | nil =>
      refine ⟨?_, fun _ => rfl, rfl, rfl, ?_⟩
      · simpa [producerStep] using h1
      · intro hd
        exact ⟨(h5 hd).1, rfl⟩
    | cons a l =>
      by_cases hlt : buf.length < BUFFER_SIZE
      · have hw : pipe_write BUFFER_SIZE ⟨buf, false, false, false⟩ (a :: l) =
            some (WResult.ok (min (a :: l).length (BUFFER_SIZE - buf.length))
              ⟨buf ++ (a :: l).take (BUFFER_SIZE - buf.length), false, false, false⟩) := by
          simp [pipe_write, hlt]
        have key : (a :: l).take (BUFFER_SIZE - buf.length) ++
            (a :: l).drop (min (a :: l).length (BUFFER_SIZE - buf.length)) = a :: l := by
          rw [show (a :: l).take (BUFFER_SIZE - buf.length) =
              (a :: l).take (min (a :: l).length (BUFFER_SIZE - buf.length)) from
            List.take_eq_take.mpr (by omega)]
          exact List.take_append_drop _ _
        refine ⟨?_, ?_, ?_, ?_, ?_⟩ <;>
          simp only [producerStep, hw]
        · rw [← h1]
          have key2 : List.take (BUFFER_SIZE - buf.length) (a :: l) ++
              List.drop ((l.length + 1) ⊓ (BUFFER_SIZE - buf.length)) (a :: l) =
                a :: l := by
            simpa using key
          simp [List.append_assoc, key2]
        · intro hcl
          simp at hcl
        · rfl
        · rfl
        · intro hd
          exact absurd (h5 hd).2 (by simp)
      · have hw : pipe_write BUFFER_SIZE ⟨buf, false, false, false⟩ (a :: l) = none := by
          simp [pipe_write, hlt]
        refine ⟨?_, ?_, ?_, ?_, ?_⟩ <;> simp only [producerStep, hw] <;>
          first
            | exact h1
            | exact h2
            | rfl
            | exact h5

lemma inv_consumerStep (payload : List Nat) (s : SysState)
    (h : Inv payload s) : Inv payload (consumerStep s) := by
  obtain ⟨pend, ⟨⟨buf, wc, rd, rb⟩⟩, cks, done⟩ := s
  obtain ⟨h1, h2, h3, h4, h5⟩ := h
  simp only at h1 h2 h3 h4 h5
  subst h3
  subst h4
  cases done with
  | true => exact ⟨h1, h2, rfl, rfl, h5⟩
  | false =>
    cases buf with
    | nil =>
      cases wc with
      | false =>
        refine ⟨?_, ?_, ?_, ?_, ?_⟩ <;>
          simp only [consumerStep, poll_next_blocked_nil] <;>
          first
            | exact h1
            | exact h2
            | rfl
            | simp
      | true =>
        have he := poll_next_eof_fix (⟨[], true, false, false⟩ : PipeState) rfl rfl rfl
        refine ⟨?_, ?_, ?_, ?_, ?_⟩ <;>
          simp only [consumerStep, he] <;>
          first
            | exact h1
            | exact h2
            | rfl
            | exact fun _ => ⟨rfl, rfl⟩
    | cons a l =>
      refine ⟨?_, ?_, ?_, ?_, ?_⟩ <;>
        simp only [consumerStep, poll_next_cons]
      · rw [← h1]
        simp [List.append_assoc]
      · exact h2
      · rfl
      · rfl
      · simp

lemma inv_step (payload : List Nat) (s : SysState) (b : Bool)
    (h : Inv payload s) : Inv payload (step s b) := by
  cases b with
  | true => exact inv_producerStep payload s h
  | false => exact inv_consumerStep payload s h

lemma inv_run (payload : List Nat) (sched : List Bool) (s : SysState)
    (h : Inv payload s) : Inv payload (run sched s) := by
  induction sched generalizing s with
  | nil => exact h
  | cons b bs ih => exact ih (step s b) (inv_step payload s b h)

/-- Claim C1: under every interleaving of the Producer Task and the
Transmitter Task, once the chunk sequence has terminated, the yielded Byte
Chunks concatenated in yield order are byte-for-byte the serialized payload —
for payloads of any size relative to the buffer capacity. -/
theorem adapter_totality (payload : List Nat) (sched : List Bool)
    (h : (run sched (initSys payload)).streamDone = true) :
    (run sched (initSys payload)).chunks.flatten = payload := by
  obtain ⟨h1, h2, _, _, h5⟩ := inv_run payload sched (initSys payload) (inv_init payload)
  obtain ⟨hb, hw⟩ := h5 h
  rw [hb, h2 hw, List.append_nil, List.append_nil] at h1
  exact h1

/-- Claim C1 witness: a 70-byte payload (larger than one buffer) transferred
under a concrete schedule is reassembled exactly. -/
theorem adapter_totality_witness :
    (run [true, false, true, true, false, false]
        (initSys (List.range 70))).chunks.flatten = List.range 70 :=
  adapter_totality (List.range 70) [true, false, true, true, false, false]
    (by decide)

/-- A concrete payload serializing to exactly 200 bytes. -/
def payload200 : List Nat := List.range 200

/-- The canonical schedule for the 200-byte transfer: the producer fills the
64-byte conduit, the consumer drains it, three times over; then the producer
writes the final 8 bytes and closes, and the consumer reads them and observes
end-of-stream. -/
def sched200 : List Bool :=
  [true, false, true, false, true, false, true, true, false, false]

set_option maxRecDepth 4000

/-- Claim C7: with a 200-byte payload and a 64-byte conduit, the Transmitter
Task receives exactly 4 chunks of sizes 64, 64, 64 and 8, in that order,
summing to the 200 payload bytes, and the sequence then terminates. -/
theorem end_to_end_200 :
    (run sched200 (initSys payload200)).chunks.map List.length =
        [64, 64, 64, 8] ∧
      (run sched200 (initSys payload200)).chunks.length = 4 ∧
      (run sched200 (initSys payload200)).chunks.flatten = payload200 ∧
      (run sched200 (initSys payload200)).streamDone = true := by
  refine ⟨?_, ?_, ?_, ?_⟩ <;> decide

end JsonStream
